import Mathlib

/-!
Shallow embedding of the snake game in `src/main.py`.

Conventions of the embedding:
* a pixel coordinate pair `(x, y)` is a `Cell := ℤ × ℤ`;
* Python's in-place mutation becomes explicit state passing
  (`Snake.move : Snake → Snake`, etc.);
* `random.randint(0, hi)` draws are modelled by an explicit list of
  natural-number pairs consumed left to right; the randint contract
  (result lies in `[0, hi]`) becomes the predicate `drawInRange`;
* `Food.reset_position`'s unbounded retry loop becomes a recursion on the
  finite list of supplied draws, returning `none` when the loop has not
  terminated within the supplied draws;
* `head()` / `body[-1]` on an empty body raise `IndexError` in Python; the
  embedding uses the `Inhabited` defaults `headI` / `getLastI` there, and
  every theorem touching them carries a non-empty-body hypothesis (the
  body is never empty in any reachable state).
-/

/-- A pixel-coordinate pair, as produced and consumed by `main.py`. -/
abbrev Cell := ℤ × ℤ

/-- `WIDTH` constant of `main.py` (line 9). -/
def WIDTH : ℤ := 800

/-- `HEIGHT` constant of `main.py` (line 9). -/
def HEIGHT : ℤ := 600

/-- `INITIAL_FRAMERATE` constant of `main.py` (line 10). -/
def INITIAL_FRAMERATE : ℕ := 5

/-- `MAX_FRAMERATE` constant of `main.py` (line 11). -/
def MAX_FRAMERATE : ℕ := 20

/-- The `Snake` class state: `self.body`, `self.direction`, `self.size`. -/
structure Snake where
  body : List Cell
  direction : Cell
  size : ℤ
deriving Repr, DecidableEq

/-- `Snake.__init__` (lines 25-29): single segment at `(WIDTH // 2, HEIGHT // 2)`,
direction `(0, -1)`, size `20`. -/
def Snake.init : Snake :=
  { body := [(WIDTH / 2, HEIGHT / 2)], direction := (0, -1), size := 20 }

/-- `Snake.head` (lines 31-33): `self.body[0]`. Python raises `IndexError`
on an empty body; the embedding returns the `Inhabited` default there. -/
def Snake.head (s : Snake) : Cell := s.body.headI

/-- `Snake.move` (lines 35-41): insert
`(head_x + dir_x * size, head_y + dir_y * size)` at index 0, then pop the
last element. -/
def Snake.move (s : Snake) : Snake :=
  let new_head : Cell :=
    (s.head.1 + s.direction.1 * s.size, s.head.2 + s.direction.2 * s.size)
  { s with body := (new_head :: s.body).dropLast }

/-- `Snake.change_direction` (lines 43-46): set the direction unless the
requested direction's componentwise negation equals the current direction. -/
def Snake.change_direction (s : Snake) (new_direction : Cell) : Snake :=
  if (new_direction.1 * -1, new_direction.2 * -1) ≠ s.direction then
    { s with direction := new_direction }
  else s

/-- `Snake.is_self_collision` (lines 48-50): `self.head() in self.body[1:]`. -/
def Snake.is_self_collision (s : Snake) : Prop := s.head ∈ s.body.tail

instance (s : Snake) : Decidable s.is_self_collision := by
  unfold Snake.is_self_collision; infer_instance

/-- `Snake.is_wall_collision` (lines 52-55):
`head_x < 0 or head_x >= WIDTH or head_y < 0 or head_y >= HEIGHT`. -/
def Snake.is_wall_collision (s : Snake) : Prop :=
  s.head.1 < 0 ∨ s.head.1 ≥ WIDTH ∨ s.head.2 < 0 ∨ s.head.2 ≥ HEIGHT

instance (s : Snake) : Decidable s.is_wall_collision := by
  unfold Snake.is_wall_collision; infer_instance

/-- `Snake.grow` (lines 57-59): `self.body.append(self.body[-1])`. Python
raises `IndexError` on an empty body; the embedding appends the `Inhabited`
default there. -/
def Snake.grow (s : Snake) : Snake :=
  { s with body := s.body ++ [s.body.getLastI] }

/-- The `Food` class state: `self.position`, `self.size`. -/
structure Food where
  position : Cell
  size : ℤ
deriving Repr, DecidableEq

/-- `Food.__init__` (lines 73-76): position `(0, 0)`, size `20`. -/
def Food.init : Food := { position := (0, 0), size := 20 }

/-- One loop iteration's sampled position in `Food.reset_position`
(lines 81-84): `(randint_result_x * size, randint_result_y * size)` where
`r` is the pair of `random.randint` results of that iteration. -/
def Food.sample (f : Food) (r : ℕ × ℕ) : Cell :=
  ((r.1 : ℤ) * f.size, (r.2 : ℤ) * f.size)

/-- The contract of the `random.randint(0, (dim - size) // size)` calls in
`Food.reset_position`: each drawn value lies in the inclusive range
`[0, (dim - size) / size]` for the corresponding dimension. -/
def drawInRange (size : ℤ) (r : ℕ × ℕ) : Prop :=
  (r.1 : ℤ) ≤ (WIDTH - size) / size ∧ (r.2 : ℤ) ≤ (HEIGHT - size) / size

instance (size : ℤ) (r : ℕ × ℕ) : Decidable (drawInRange size r) := by
  unfold drawInRange; infer_instance

/-- `Food.reset_position` (lines 78-86): repeatedly assign a sampled
position until it is not in `snake.body`. The Python `while True` loop is
driven here by the finite list of supplied randint draws; `none` means the
loop did not terminate within the supplied draws. On success the result
pairs the updated food with the unconsumed draws. -/
def Food.reset_position (f : Food) (snake : Snake) :
    List (ℕ × ℕ) → Option (Food × List (ℕ × ℕ))
  | [] => none
  | r :: rest =>
    if f.sample r ∈ snake.body then
      ({ f with position := f.sample r } : Food).reset_position snake rest
    else some ({ f with position := f.sample r }, rest)

/-- The mutable state of `main` (lines 104-109) that the simulation
touches: `snake`, `food`, `score`, `framerate`, `game_over`. (`running`
only controls loop exit and is handled by the driver, not the state.) -/
structure GameState where
  snake : Snake
  food : Food
  score : ℕ
  framerate : ℕ
  game_over : Bool
deriving Repr, DecidableEq

/-- The input events `main` reacts to (lines 113-131): a quit request, the
four arrow key-down events, the `R` key-down event, and any other event
(ignored by the dispatch chain). -/
inductive Event where
  | quit
  | keyUp
  | keyDown
  | keyLeft
  | keyRight
  | keyR
  | other
deriving Repr, DecidableEq

/-- One iteration of the event dispatch in `main` (lines 114-131). `quit`
only clears the `running` flag (loop control, not game state). The `R` key
rebuilds `snake` and `food`, resets `score` and `framerate`, and clears
`game_over` — but only when `game_over` is set. `none` propagates a
non-terminating `reset_position` loop. -/
def handleEvent (s : GameState) (e : Event) (draws : List (ℕ × ℕ)) :
    Option (GameState × List (ℕ × ℕ)) :=
  match e with
  | .quit => some (s, draws)
  | .keyUp => some ({ s with snake := s.snake.change_direction (0, -1) }, draws)
  | .keyDown => some ({ s with snake := s.snake.change_direction (0, 1) }, draws)
  | .keyLeft => some ({ s with snake := s.snake.change_direction (-1, 0) }, draws)
  | .keyRight => some ({ s with snake := s.snake.change_direction (1, 0) }, draws)
  | .keyR =>
    if s.game_over then
      match Food.init.reset_position Snake.init draws with
      | none => none
      | some (food, rest) =>
        some ({ snake := Snake.init, food := food, score := 0,
                framerate := INITIAL_FRAMERATE, game_over := false }, rest)
    else some (s, draws)
  | .other => some (s, draws)

/-- Draining the event queue for one frame (`for event in pygame.event.get()`,
line 113): fold `handleEvent` over the drained events in order. -/
def handleEvents (s : GameState) (es : List Event) (draws : List (ℕ × ℕ)) :
    Option (GameState × List (ℕ × ℕ)) :=
  match es with
  | [] => some (s, draws)
  | e :: rest =>
    match handleEvent s e draws with
    | none => none
    | some (s', draws') => handleEvents s' rest draws'

/-- The simulation block of a frame (`if not game_over:` lines 133-143):
move the snake, set `game_over` on a collision, and — unconditionally after
the collision check, exactly as in the source — test `snake.head() ==
food.position` and on a hit grow, reposition the food, bump the score and
the framerate (capped at `MAX_FRAMERATE`). -/
def simStep (s : GameState) (draws : List (ℕ × ℕ)) :
    Option (GameState × List (ℕ × ℕ)) :=
  if s.game_over then some (s, draws)
  else
    if s.snake.move.head = s.food.position then
      match s.food.reset_position s.snake.move.grow draws with
      | none => none
      | some (food, rest) =>
        some ({ snake := s.snake.move.grow, food := food, score := s.score + 1,
                framerate := min (s.framerate + 1) MAX_FRAMERATE,
                game_over := decide (s.snake.move.is_self_collision ∨
                  s.snake.move.is_wall_collision) }, rest)
    else
      some ({ s with
                snake := s.snake.move,
                game_over := decide (s.snake.move.is_self_collision ∨
                  s.snake.move.is_wall_collision) },
            draws)

/-- One complete iteration of the outer `while running:` loop as far as the
game state is concerned (lines 112-143): drain the events, then run the
simulation block. Rendering and pacing (lines 145-162) do not touch the
state. -/
def frame (s : GameState) (es : List Event) (draws : List (ℕ × ℕ)) :
    Option (GameState × List (ℕ × ℕ)) :=
  match handleEvents s es draws with
  | none => none
  | some (s', draws') => simStep s' draws'

/-- The state set up before the loop (lines 104-110): fresh snake, fresh
food immediately repositioned off the snake, score `0`, initial framerate,
not game over. -/
def initState (draws : List (ℕ × ℕ)) : Option (GameState × List (ℕ × ℕ)) :=
  match Food.init.reset_position Snake.init draws with
  | none => none
  | some (food, rest) =>
    some ({ snake := Snake.init, food := food, score := 0,
            framerate := INITIAL_FRAMERATE, game_over := false }, rest)

/-- The states of `main` observable at a frame boundary: the state set up
before the loop, and every state produced from a reachable one by one
complete frame, for any drained events and any randint draws satisfying
the randint range contract. -/
inductive Reachable : GameState → Prop where
  | init : ∀ draws s rest, (∀ r ∈ draws, drawInRange 20 r) →
      initState draws = some (s, rest) → Reachable s
  | step : ∀ s es draws s' rest, Reachable s →
      (∀ r ∈ draws, drawInRange 20 r) →
      frame s es draws = some (s', rest) → Reachable s'

/-! ### Helper lemmas about the snake operations -/

lemma dropLast_cons_of_ne_nil {α : Type} (x : α) {l : List α} (h : l ≠ []) :
    (x :: l).dropLast = x :: l.dropLast := by
  cases l with
  | nil => exact absurd rfl h
  | cons a t => rfl

lemma Snake.move_body (s : Snake) (h : s.body ≠ []) :
    s.move.body =
      (s.head.1 + s.direction.1 * s.size, s.head.2 + s.direction.2 * s.size) ::
        s.body.dropLast := by
  simp only [Snake.move]
  exact dropLast_cons_of_ne_nil _ h

lemma Snake.move_length (s : Snake) :
    s.move.body.length = s.body.length := by
  simp [Snake.move]

lemma getLastI_mem {α : Type} [Inhabited α] {l : List α} (h : l ≠ []) :
    l.getLastI ∈ l := by
  rw [List.getLastI_eq_getLast?, List.getLast?_eq_getLast l h]
  exact List.getLast_mem h

lemma neg_pair_eq_iff (a b : Cell) :
    ((a.1 * -1, a.2 * -1) = b) ↔ (a = (b.1 * -1, b.2 * -1)) := by
  simp only [Prod.ext_iff]
  omega

lemma change_direction_self {d : Cell} (t : Snake) (h : t.direction = d) :
    t.change_direction d = t := by
  unfold Snake.change_direction
  split
  · cases t
    simp_all
  · rfl

/-! ### C1: `move` preserves length, translates the head, shifts the rest -/

/-- C1: For every snake with a non-empty body and segment size 20,
`move()` leaves the body length unchanged, the new head equals the old head
translated by `direction * 20` on each axis, and every other segment takes
the previous segment's former position (the moved body's tail is the old
body minus its last element). -/
theorem snake_move_spec (s : Snake) (hne : s.body ≠ []) (hsz : s.size = 20) :
    s.move.body.length = s.body.length ∧
    s.move.head = (s.head.1 + s.direction.1 * 20, s.head.2 + s.direction.2 * 20) ∧
    s.move.body.tail = s.body.dropLast := by
  refine ⟨Snake.move_length s, ?_, ?_⟩
  · rw [Snake.head, Snake.move_body s hne]
    simp [hsz]
  · rw [Snake.move_body s hne]
    rfl

/-- A concrete three-segment snake used to instantiate the theorems. -/
def demoSnake : Snake :=
  { body := [(400, 300), (400, 320), (400, 340)], direction := (0, -1), size := 20 }

/-- Witness for `snake_move_spec` at the concrete snake `demoSnake`. -/
theorem snake_move_spec_witness :
    demoSnake.body ≠ [] ∧ demoSnake.size = 20 ∧
    (demoSnake.move.body.length = demoSnake.body.length ∧
     demoSnake.move.head =
       (demoSnake.head.1 + demoSnake.direction.1 * 20,
        demoSnake.head.2 + demoSnake.direction.2 * 20) ∧
     demoSnake.move.body.tail = demoSnake.body.dropLast) :=
  ⟨by decide, by decide, snake_move_spec demoSnake (by decide) (by decide)⟩

/-! ### C5: `change_direction` -/

/-- C5 counterexample: With current direction `(0,-1)` and requested
direction `d = (0,-1)` (the current direction itself), the direction is left
unchanged although `d` is not the negation of the current direction, so the
claimed "unchanged if and only if `d` is the exact negation" fails in its
only-if direction. -/
theorem change_direction_iff_counterexample :
    ¬ (((Snake.init.change_direction ((0 : ℤ), (-1 : ℤ))).direction =
          Snake.init.direction) ↔
        ((0 : ℤ), (-1 : ℤ)) =
          (Snake.init.direction.1 * -1, Snake.init.direction.2 * -1)) := by
  decide

/-- C5 amended: For every snake and requested direction `d` among the
four unit vectors, `change_direction(d)` leaves the current direction
unchanged iff `d` is the exact negation of the current direction or `d`
already equals the current direction; whenever `d` is not the exact
negation, the current direction becomes `d`. -/
theorem change_direction_spec (s : Snake) (d : Cell)
    (_hd : d = (0, -1) ∨ d = (0, 1) ∨ d = (-1, 0) ∨ d = (1, 0)) :
    ((s.change_direction d).direction = s.direction ↔
      (d = (s.direction.1 * -1, s.direction.2 * -1) ∨ d = s.direction)) ∧
    (d ≠ (s.direction.1 * -1, s.direction.2 * -1) →
      (s.change_direction d).direction = d) := by
  unfold Snake.change_direction
  by_cases h : (d.1 * -1, d.2 * -1) = s.direction
  · rw [if_neg (not_not.mpr h)]
    have hd' : d = (s.direction.1 * -1, s.direction.2 * -1) :=
      (neg_pair_eq_iff d s.direction).mp h
    exact ⟨by simp [hd'], fun hc => absurd hd' hc⟩
  · rw [if_pos h]
    refine ⟨⟨fun hdd => Or.inr hdd, ?_⟩, fun _ => rfl⟩
    rintro (hneg | hdd)
    · exact absurd ((neg_pair_eq_iff d s.direction).mpr hneg) h
    · exact hdd

/-- Witness for `change_direction_spec` at `Snake.init` and `d = (0, 1)`. -/
theorem change_direction_spec_witness :
    (((0 : ℤ), (1 : ℤ)) = ((0 : ℤ), (-1 : ℤ)) ∨ ((0 : ℤ), (1 : ℤ)) = ((0 : ℤ), (1 : ℤ)) ∨
     ((0 : ℤ), (1 : ℤ)) = ((-1 : ℤ), (0 : ℤ)) ∨ ((0 : ℤ), (1 : ℤ)) = ((1 : ℤ), (0 : ℤ))) ∧
    (((Snake.init.change_direction ((0 : ℤ), (1 : ℤ))).direction = Snake.init.direction ↔
       (((0 : ℤ), (1 : ℤ)) = (Snake.init.direction.1 * -1, Snake.init.direction.2 * -1) ∨
        ((0 : ℤ), (1 : ℤ)) = Snake.init.direction)) ∧
     (((0 : ℤ), (1 : ℤ)) ≠ (Snake.init.direction.1 * -1, Snake.init.direction.2 * -1) →
       (Snake.init.change_direction ((0 : ℤ), (1 : ℤ))).direction = ((0 : ℤ), (1 : ℤ)))) :=
  ⟨by decide, change_direction_spec Snake.init ((0 : ℤ), (1 : ℤ)) (by decide)⟩

/-! ### C8: pressing the same directional key twice -/

/-- C8 counterexample: With current direction `(0,-1)` and key
direction `d = (0,1)` (the reversal key), both `change_direction(d)` calls
are ignored by the 180-degree guard, so the final direction is `(0,-1)`,
not `d` as the claim states. -/
theorem change_direction_twice_counterexample :
    ¬ (((Snake.init.change_direction ((0 : ℤ), (1 : ℤ))).change_direction
          ((0 : ℤ), (1 : ℤ))).direction = ((0 : ℤ), (1 : ℤ))) := by
  decide

/-- C8 amended: For every snake and directional key `d` among the four
unit vectors, applying `change_direction(d)` twice with no intervening
`move()` is the same as applying it once (idempotence), and the final
direction equals `d` whenever `d` is not the exact negation of the original
current direction (otherwise both calls are ignored and the direction is
unchanged). -/
theorem change_direction_idem (s : Snake) (d : Cell)
    (_hd : d = (0, -1) ∨ d = (0, 1) ∨ d = (-1, 0) ∨ d = (1, 0)) :
    (s.change_direction d).change_direction d = s.change_direction d ∧
    (d ≠ (s.direction.1 * -1, s.direction.2 * -1) →
      ((s.change_direction d).change_direction d).direction = d) := by
  by_cases h : (d.1 * -1, d.2 * -1) = s.direction
  · have e1 : s.change_direction d = s := by
      unfold Snake.change_direction
      rw [if_neg (not_not.mpr h)]
    rw [e1]
    refine ⟨e1, fun hc => ?_⟩
    exact absurd ((neg_pair_eq_iff d s.direction).mp h) hc
  · have e1 : s.change_direction d = { s with direction := d } := by
      unfold Snake.change_direction
      rw [if_pos h]
    have e2 : (s.change_direction d).change_direction d = s.change_direction d :=
      change_direction_self _ (by rw [e1])
    refine ⟨e2, fun _ => ?_⟩
    rw [e2, e1]

/-- Witness for `change_direction_idem` at `Snake.init` and `d = (-1, 0)`. -/
theorem change_direction_idem_witness :
    (((-1 : ℤ), (0 : ℤ)) = ((0 : ℤ), (-1 : ℤ)) ∨ ((-1 : ℤ), (0 : ℤ)) = ((0 : ℤ), (1 : ℤ)) ∨
     ((-1 : ℤ), (0 : ℤ)) = ((-1 : ℤ), (0 : ℤ)) ∨ ((-1 : ℤ), (0 : ℤ)) = ((1 : ℤ), (0 : ℤ))) ∧
    ((Snake.init.change_direction ((-1 : ℤ), (0 : ℤ))).change_direction ((-1 : ℤ), (0 : ℤ)) =
       Snake.init.change_direction ((-1 : ℤ), (0 : ℤ)) ∧
     (((-1 : ℤ), (0 : ℤ)) ≠ (Snake.init.direction.1 * -1, Snake.init.direction.2 * -1) →
       ((Snake.init.change_direction ((-1 : ℤ), (0 : ℤ))).change_direction
           ((-1 : ℤ), (0 : ℤ))).direction = ((-1 : ℤ), (0 : ℤ)))) :=
  ⟨by decide, change_direction_idem Snake.init ((-1 : ℤ), (0 : ℤ)) (by decide)⟩

/-! ### C6: `grow` then `move` adds one segment -/

/-- C6: For every snake with a non-empty body, `grow()` appends a
duplicate of the current last segment, and a `grow()` followed by one
`move()` leaves the body one segment longer than before the `grow()`. -/
theorem snake_grow_move_spec (s : Snake) (hne : s.body ≠ []) :
    s.grow.move.body.length = s.body.length + 1 ∧
    s.grow.body = s.body ++ [s.body.getLast hne] := by
  constructor
  · rw [Snake.move_length]
    simp [Snake.grow]
  · simp only [Snake.grow]
    rw [List.getLastI_eq_getLast?, List.getLast?_eq_getLast s.body hne]

/-- Witness for `snake_grow_move_spec` at the concrete snake `demoSnake`. -/
theorem snake_grow_move_spec_witness :
    demoSnake.body ≠ [] ∧
    (demoSnake.grow.move.body.length = demoSnake.body.length + 1 ∧
     demoSnake.grow.body = demoSnake.body ++ [demoSnake.body.getLast (by decide)]) :=
  ⟨by decide, snake_grow_move_spec demoSnake (by decide)⟩

/-! ### Helper lemmas about `Food.reset_position` -/

lemma reset_position_spec_aux (snake : Snake) :
    ∀ (draws : List (ℕ × ℕ)) (f f' : Food) (rest : List (ℕ × ℕ)),
      f.reset_position snake draws = some (f', rest) →
      f'.position ∉ snake.body ∧ f'.size = f.size ∧
      (∃ r ∈ draws, f'.position = ((r.1 : ℤ) * f.size, (r.2 : ℤ) * f.size)) ∧
      (∀ x ∈ rest, x ∈ draws) := by
  intro draws
  induction draws with
  | nil =>
    intro f f' rest h
    simp [Food.reset_position] at h
  | cons r tl ih =>
    intro f f' rest h
    rw [Food.reset_position] at h
    by_cases hm : f.sample r ∈ snake.body
    · rw [if_pos hm] at h
      obtain ⟨h1, h2, h3, h4⟩ := ih _ f' rest h
      refine ⟨h1, h2, ?_, fun x hx => List.mem_cons_of_mem r (h4 x hx)⟩
      obtain ⟨r', hr', he⟩ := h3
      exact ⟨r', List.mem_cons_of_mem r hr', he⟩
    · rw [if_neg hm] at h
      rw [Option.some.injEq, Prod.mk.injEq] at h
      obtain ⟨rfl, rfl⟩ := h
      exact ⟨hm, rfl, ⟨r, List.mem_cons_self r tl, rfl⟩,
        fun x hx => List.mem_cons_of_mem r hx⟩

lemma reset_position_not_mem {snake : Snake} {draws rest : List (ℕ × ℕ)}
    {f f' : Food} (h : f.reset_position snake draws = some (f', rest)) :
    f'.position ∉ snake.body :=
  (reset_position_spec_aux snake draws f f' rest h).1

lemma reset_position_size {snake : Snake} {draws rest : List (ℕ × ℕ)}
    {f f' : Food} (h : f.reset_position snake draws = some (f', rest)) :
    f'.size = f.size :=
  (reset_position_spec_aux snake draws f f' rest h).2.1

lemma reset_position_rest_mem {snake : Snake} {draws rest : List (ℕ × ℕ)}
    {f f' : Food} (h : f.reset_position snake draws = some (f', rest)) :
    ∀ x ∈ rest, x ∈ draws :=
  (reset_position_spec_aux snake draws f f' rest h).2.2.2

lemma reset_position_bounds {snake : Snake} {draws rest : List (ℕ × ℕ)}
    {f f' : Food} (hsz : f.size = 20) (hdr : ∀ r ∈ draws, drawInRange 20 r)
    (h : f.reset_position snake draws = some (f', rest)) :
    (20 : ℤ) ∣ f'.position.1 ∧ 0 ≤ f'.position.1 ∧ f'.position.1 ≤ 780 ∧
    (20 : ℤ) ∣ f'.position.2 ∧ 0 ≤ f'.position.2 ∧ f'.position.2 ≤ 580 := by
  obtain ⟨-, -, ⟨r, hr, he⟩, -⟩ := reset_position_spec_aux snake draws f f' rest h
  obtain ⟨hx, hy⟩ := hdr r hr
  have hx' : (r.1 : ℤ) ≤ 39 := by
    have : ((WIDTH - 20) / 20 : ℤ) = 39 := by decide
    omega
  have hy' : (r.2 : ℤ) ≤ 29 := by
    have : ((HEIGHT - 20) / 20 : ℤ) = 29 := by decide
    omega
  rw [he, hsz]
  refine ⟨⟨(r.1 : ℤ), by ring⟩, ?_, ?_, ⟨(r.2 : ℤ), by ring⟩, ?_, ?_⟩ <;> omega

/-! ### C3: `reset_position` lands off the snake, on the grid, in bounds -/

/-- C3: Every call to `food.reset_position(snake)` that returns (i.e.
whose rejection-sampling loop terminates within the supplied randint draws)
yields a position that is not an element of `snake.body` and that is
grid-aligned inside the arena: `x` a multiple of 20 in `[0, 780]` and `y` a
multiple of 20 in `[0, 580]`, assuming the food's cell size is 20 and each
randint draw obeys the randint range contract. -/
theorem food_reset_position_spec (f : Food) (snake : Snake)
    (draws rest : List (ℕ × ℕ)) (f' : Food)
    (hsz : f.size = 20) (hdr : ∀ r ∈ draws, drawInRange 20 r)
    (h : f.reset_position snake draws = some (f', rest)) :
    f'.position ∉ snake.body ∧
    (20 : ℤ) ∣ f'.position.1 ∧ 0 ≤ f'.position.1 ∧ f'.position.1 ≤ 780 ∧
    (20 : ℤ) ∣ f'.position.2 ∧ 0 ≤ f'.position.2 ∧ f'.position.2 ≤ 580 :=
  ⟨reset_position_not_mem h, reset_position_bounds hsz hdr h⟩

/-- The food produced by `reset_position` in the concrete runs below. -/
def demoFood : Food := { position := (100, 100), size := 20 }

/-- Witness for `food_reset_position_spec`: from `Food.init`, against the
freshly created snake, with draws `[(20, 15), (5, 5)]` — the first sample
`(400, 300)` hits the snake and is rejected, the second `(100, 100)` is
accepted. -/
theorem food_reset_position_spec_witness :
    Food.init.size = 20 ∧
    (∀ r ∈ ([(20, 15), (5, 5)] : List (ℕ × ℕ)), drawInRange 20 r) ∧
    Food.init.reset_position Snake.init [(20, 15), (5, 5)] = some (demoFood, []) ∧
    (demoFood.position ∉ Snake.init.body ∧
     (20 : ℤ) ∣ demoFood.position.1 ∧ 0 ≤ demoFood.position.1 ∧ demoFood.position.1 ≤ 780 ∧
     (20 : ℤ) ∣ demoFood.position.2 ∧ 0 ≤ demoFood.position.2 ∧ demoFood.position.2 ≤ 580) :=
  ⟨by decide, by decide, by decide,
   food_reset_position_spec Food.init Snake.init [(20, 15), (5, 5)] [] demoFood
     (by decide) (by decide) (by decide)⟩

/-! ### C7: the restart input -/

/-- C7: A restart (`R`) key event changes the game state only when the
phase is game over; in that case, provided the food-placement loop returns,
the resulting state has score 0, framerate 5 (the initial rate), phase
running, the snake reset to the single segment `(400, 300)` (the arena
center) heading up `(0, -1)` with size 20, and the food repositioned to a
cell not in the new snake's body. -/
theorem restart_spec (s : GameState) (draws rest : List (ℕ × ℕ)) (s' : GameState) :
    (s.game_over = false → handleEvent s Event.keyR draws = some (s, draws)) ∧
    (s.game_over = true → handleEvent s Event.keyR draws = some (s', rest) →
      s'.score = 0 ∧ s'.framerate = 5 ∧ s'.game_over = false ∧
      s'.snake.body = [((400 : ℤ), (300 : ℤ))] ∧
      s'.snake.direction = ((0 : ℤ), (-1 : ℤ)) ∧ s'.snake.size = 20 ∧
      s'.food.position ∉ s'.snake.body) := by
  constructor
  · intro hro
    simp [handleEvent, hro]
  · intro hro h
    rw [show handleEvent s Event.keyR draws =
          (if s.game_over then
            match Food.init.reset_position Snake.init draws with
            | none => none
            | some (food, rest) =>
              some ({ snake := Snake.init, food := food, score := 0,
                      framerate := INITIAL_FRAMERATE, game_over := false }, rest)
          else some (s, draws)) from rfl, if_pos (by rw [hro])] at h
    cases hre : Food.init.reset_position Snake.init draws with
    | none => rw [hre] at h; exact absurd h (by simp)
    | some p =>
      obtain ⟨food, rest'⟩ := p
      rw [hre, Option.some.injEq, Prod.mk.injEq] at h
      obtain ⟨h1, -⟩ := h
      subst h1
      refine ⟨rfl, rfl, rfl, rfl, rfl, rfl, ?_⟩
      exact reset_position_not_mem hre

/-- A concrete game-over state used to instantiate the restart theorem. -/
def demoOver : GameState :=
  { snake := { body := [(-20, 300)], direction := (-1, 0), size := 20 },
    food := demoFood, score := 3, framerate := 8, game_over := true }

/-- The state the restart in the witness produces. -/
def demoRestarted : GameState :=
  { snake := Snake.init, food := demoFood, score := 0,
    framerate := 5, game_over := false }

/-- A concrete running state used to instantiate the no-op half of the
restart theorem. -/
def demoRunning : GameState :=
  { snake := Snake.init, food := demoFood, score := 0,
    framerate := 5, game_over := false }

/-- Witness for `restart_spec`: the `R` key is a no-op on the running state
`demoRunning`, and on the game-over state `demoOver` with draw `(5, 5)` it
produces `demoRestarted` with all the claimed resets. -/
theorem restart_spec_witness :
    handleEvent demoRunning Event.keyR [] = some (demoRunning, []) ∧
    (demoRestarted.score = 0 ∧ demoRestarted.framerate = 5 ∧
     demoRestarted.game_over = false ∧
     demoRestarted.snake.body = [((400 : ℤ), (300 : ℤ))] ∧
     demoRestarted.snake.direction = ((0 : ℤ), (-1 : ℤ)) ∧
     demoRestarted.snake.size = 20 ∧
     demoRestarted.food.position ∉ demoRestarted.snake.body) :=
  ⟨(restart_spec demoRunning [] [] demoRunning).1 rfl,
   (restart_spec demoOver [(5, 5)] [] demoRestarted).2 rfl (by decide)⟩

/-! ### The frame-boundary invariant of the game state -/

lemma headI_mem {α : Type} [Inhabited α] {l : List α} (h : l ≠ []) :
    l.headI ∈ l := by
  cases l with
  | nil => exact absurd rfl h
  | cons a t => exact List.mem_cons_self a t

lemma Snake.move_head (s : Snake) (h : s.body ≠ []) :
    s.move.head =
      (s.head.1 + s.direction.1 * s.size, s.head.2 + s.direction.2 * s.size) := by
  rw [Snake.head, Snake.move_body s h]
  rfl

lemma Snake.move_ne {s : Snake} (h : s.body ≠ []) : s.move.body ≠ [] := by
  rw [Snake.move_body s h]
  exact List.cons_ne_nil _ _

lemma Snake.move_mem {s : Snake} {c : Cell} (h : s.body ≠ []) (hc : c ∈ s.move.body) :
    c = s.move.head ∨ c ∈ s.body := by
  rw [Snake.move_body s h] at hc
  rcases List.mem_cons.mp hc with h1 | h2
  · left
    rw [Snake.move_head s h]
    exact h1
  · right
    exact List.dropLast_subset _ h2

lemma Snake.move_aligned {s : Snake} (h : s.body ≠ []) (hsz : s.size = 20)
    (hal : ∀ c ∈ s.body, (20 : ℤ) ∣ c.1 ∧ (20 : ℤ) ∣ c.2) :
    ∀ c ∈ s.move.body, (20 : ℤ) ∣ c.1 ∧ (20 : ℤ) ∣ c.2 := by
  intro c hc
  rcases Snake.move_mem h hc with rfl | hmem
  · rw [Snake.move_head s h, hsz]
    obtain ⟨h1, h2⟩ := hal s.head (by rw [Snake.head]; exact headI_mem h)
    exact ⟨dvd_add h1 (dvd_mul_left 20 s.direction.1),
           dvd_add h2 (dvd_mul_left 20 s.direction.2)⟩
  · exact hal c hmem

lemma Snake.grow_ne {s : Snake} : s.grow.body ≠ [] := by
  simp [Snake.grow]

lemma Snake.grow_mem {s : Snake} {c : Cell} (h : s.body ≠ []) (hc : c ∈ s.grow.body) :
    c ∈ s.body := by
  simp only [Snake.grow] at hc
  rcases List.mem_append.mp hc with h1 | h2
  · exact h1
  · rw [List.mem_singleton.mp h2]
    exact getLastI_mem h

lemma Snake.grow_length (s : Snake) : s.grow.body.length = s.body.length + 1 := by
  simp [Snake.grow]

lemma change_direction_body (s : Snake) (d : Cell) :
    (s.change_direction d).body = s.body := by
  unfold Snake.change_direction
  split <;> rfl

lemma change_direction_size (s : Snake) (d : Cell) :
    (s.change_direction d).size = s.size := by
  unfold Snake.change_direction
  split <;> rfl

/-- The invariant maintained at every frame boundary of `main`: the body is
non-empty, the sizes are the constant 20, every body segment is
grid-aligned, the food is off the body and grid-aligned inside the arena,
and the body length stays one ahead of the score. -/
structure StateInv (s : GameState) : Prop where
  body_ne : s.snake.body ≠ []
  snake_size : s.snake.size = 20
  food_size : s.food.size = 20
  body_aligned : ∀ c ∈ s.snake.body, (20 : ℤ) ∣ c.1 ∧ (20 : ℤ) ∣ c.2
  food_not_mem : s.food.position ∉ s.snake.body
  food_x_dvd : (20 : ℤ) ∣ s.food.position.1
  food_x_lb : 0 ≤ s.food.position.1
  food_x_ub : s.food.position.1 ≤ 780
  food_y_dvd : (20 : ℤ) ∣ s.food.position.2
  food_y_lb : 0 ≤ s.food.position.2
  food_y_ub : s.food.position.2 ≤ 580
  len_score : s.snake.body.length = s.score + 1

lemma inv_update_dir {s : GameState} (hs : StateInv s) (d : Cell) :
    StateInv { s with snake := s.snake.change_direction d } := by
  refine ⟨?_, ?_, hs.food_size, ?_, ?_, hs.food_x_dvd, hs.food_x_lb, hs.food_x_ub,
          hs.food_y_dvd, hs.food_y_lb, hs.food_y_ub, ?_⟩
  · show (s.snake.change_direction d).body ≠ []
    rw [change_direction_body]
    exact hs.body_ne
  · show (s.snake.change_direction d).size = 20
    rw [change_direction_size]
    exact hs.snake_size
  · show ∀ c ∈ (s.snake.change_direction d).body, (20 : ℤ) ∣ c.1 ∧ (20 : ℤ) ∣ c.2
    rw [change_direction_body]
    exact hs.body_aligned
  · show s.food.position ∉ (s.snake.change_direction d).body
    rw [change_direction_body]
    exact hs.food_not_mem
  · show (s.snake.change_direction d).body.length = s.score + 1
    rw [change_direction_body]
    exact hs.len_score

lemma inv_fresh {draws rest : List (ℕ × ℕ)} {food : Food}
    (hdr : ∀ r ∈ draws, drawInRange 20 r)
    (hre : Food.init.reset_position Snake.init draws = some (food, rest)) (fr : ℕ) :
    StateInv { snake := Snake.init, food := food, score := 0,
               framerate := fr, game_over := false } := by
  have hb := reset_position_bounds (f := Food.init) rfl hdr hre
  refine ⟨by show Snake.init.body ≠ []; decide, rfl, ?_,
          by show ∀ c ∈ Snake.init.body, (20 : ℤ) ∣ c.1 ∧ (20 : ℤ) ∣ c.2; decide,
          reset_position_not_mem hre,
          hb.1, hb.2.1, hb.2.2.1, hb.2.2.2.1, hb.2.2.2.2.1, hb.2.2.2.2.2,
          by show Snake.init.body.length = 0 + 1; decide⟩
  exact reset_position_size hre

lemma handleEvent_inv {s s' : GameState} {e : Event} {draws rest : List (ℕ × ℕ)}
    (hs : StateInv s) (hdr : ∀ r ∈ draws, drawInRange 20 r)
    (h : handleEvent s e draws = some (s', rest)) :
    StateInv s' ∧ ∀ x ∈ rest, x ∈ draws := by
  cases e with
  | quit =>
    simp only [handleEvent, Option.some.injEq, Prod.mk.injEq] at h
    obtain ⟨rfl, rfl⟩ := h
    exact ⟨hs, fun x hx => hx⟩
  | keyUp =>
    simp only [handleEvent, Option.some.injEq, Prod.mk.injEq] at h
    obtain ⟨rfl, rfl⟩ := h
    exact ⟨inv_update_dir hs _, fun x hx => hx⟩
  | keyDown =>
    simp only [handleEvent, Option.some.injEq, Prod.mk.injEq] at h
    obtain ⟨rfl, rfl⟩ := h
    exact ⟨inv_update_dir hs _, fun x hx => hx⟩
  | keyLeft =>
    simp only [handleEvent, Option.some.injEq, Prod.mk.injEq] at h
    obtain ⟨rfl, rfl⟩ := h
    exact ⟨inv_update_dir hs _, fun x hx => hx⟩
  | keyRight =>
    simp only [handleEvent, Option.some.injEq, Prod.mk.injEq] at h
    obtain ⟨rfl, rfl⟩ := h
    exact ⟨inv_update_dir hs _, fun x hx => hx⟩
  | keyR =>
    simp only [handleEvent] at h
    by_cases hro : s.game_over
    · rw [if_pos hro] at h
      cases hre : Food.init.reset_position Snake.init draws with
      | none =>
        rw [hre] at h
        exact absurd h (by simp)
      | some p =>
        obtain ⟨food, rest'⟩ := p
        rw [hre, Option.some.injEq, Prod.mk.injEq] at h
        obtain ⟨rfl, rfl⟩ := h
        exact ⟨inv_fresh hdr hre _, reset_position_rest_mem hre⟩
    · rw [if_neg hro, Option.some.injEq, Prod.mk.injEq] at h
      obtain ⟨rfl, rfl⟩ := h
      exact ⟨hs, fun x hx => hx⟩
  | other =>
    simp only [handleEvent, Option.some.injEq, Prod.mk.injEq] at h
    obtain ⟨rfl, rfl⟩ := h
    exact ⟨hs, fun x hx => hx⟩

lemma handleEvents_inv :
    ∀ (es : List Event) (s s' : GameState) (draws rest : List (ℕ × ℕ)),
      StateInv s → (∀ r ∈ draws, drawInRange 20 r) →
      handleEvents s es draws = some (s', rest) →
      StateInv s' ∧ ∀ x ∈ rest, x ∈ draws := by
  intro es
  induction es with
  | nil =>
    intro s s' draws rest hs hdr h
    simp only [handleEvents, Option.some.injEq, Prod.mk.injEq] at h
    obtain ⟨rfl, rfl⟩ := h
    exact ⟨hs, fun x hx => hx⟩
  | cons e tl ih =>
    intro s s' draws rest hs hdr h
    rw [handleEvents] at h
    cases he : handleEvent s e draws with
    | none =>
      rw [he] at h
      exact absurd h (by simp)
    | some p =>
      obtain ⟨s₁, draws₁⟩ := p
      rw [he] at h
      obtain ⟨h1, hsub1⟩ := handleEvent_inv hs hdr he
      have hdr1 : ∀ r ∈ draws₁, drawInRange 20 r := fun r hr => hdr r (hsub1 r hr)
      obtain ⟨h2, hsub2⟩ := ih s₁ s' draws₁ rest h1 hdr1 h
      exact ⟨h2, fun x hx => hsub1 x (hsub2 x hx)⟩

lemma simStep_inv {s s' : GameState} {draws rest : List (ℕ × ℕ)}
    (hs : StateInv s) (hdr : ∀ r ∈ draws, drawInRange 20 r)
    (h : simStep s draws = some (s', rest)) :
    StateInv s' ∧ ∀ x ∈ rest, x ∈ draws := by
  rw [simStep] at h
  by_cases hro : s.game_over
  · rw [if_pos hro, Option.some.injEq, Prod.mk.injEq] at h
    obtain ⟨rfl, rfl⟩ := h
    exact ⟨hs, fun x hx => hx⟩
  · rw [if_neg hro] at h
    by_cases hf : s.snake.move.head = s.food.position
    · rw [if_pos hf] at h
      cases hre : s.food.reset_position s.snake.move.grow draws with
      | none =>
        rw [hre] at h
        exact absurd h (by simp)
      | some p =>
        obtain ⟨food, rest'⟩ := p
        rw [hre, Option.some.injEq, Prod.mk.injEq] at h
        obtain ⟨rfl, rfl⟩ := h
        have hmal := Snake.move_aligned hs.body_ne hs.snake_size hs.body_aligned
        have hbnds := reset_position_bounds hs.food_size hdr hre
        refine ⟨⟨Snake.grow_ne, hs.snake_size, ?_, ?_, reset_position_not_mem hre,
                hbnds.1, hbnds.2.1, hbnds.2.2.1, hbnds.2.2.2.1, hbnds.2.2.2.2.1,
                hbnds.2.2.2.2.2, ?_⟩, reset_position_rest_mem hre⟩
        · show food.size = 20
          rw [reset_position_size hre]
          exact hs.food_size
        · show ∀ c ∈ s.snake.move.grow.body, (20 : ℤ) ∣ c.1 ∧ (20 : ℤ) ∣ c.2
          intro c hc
          exact hmal c (Snake.grow_mem (Snake.move_ne hs.body_ne) hc)
        · show s.snake.move.grow.body.length = (s.score + 1) + 1
          rw [Snake.grow_length, Snake.move_length]
          rw [hs.len_score]
    · rw [if_neg hf, Option.some.injEq, Prod.mk.injEq] at h
      obtain ⟨rfl, rfl⟩ := h
      refine ⟨⟨Snake.move_ne hs.body_ne, hs.snake_size, hs.food_size,
              Snake.move_aligned hs.body_ne hs.snake_size hs.body_aligned, ?_,
              hs.food_x_dvd, hs.food_x_lb, hs.food_x_ub,
              hs.food_y_dvd, hs.food_y_lb, hs.food_y_ub, ?_⟩, fun x hx => hx⟩
      · show s.food.position ∉ s.snake.move.body
        intro hmem
        rcases Snake.move_mem hs.body_ne hmem with heq | hmem'
        · exact hf heq.symm
        · exact hs.food_not_mem hmem'
      · show s.snake.move.body.length = s.score + 1
        rw [Snake.move_length]
        exact hs.len_score

lemma frame_inv {s s' : GameState} {es : List Event} {draws rest : List (ℕ × ℕ)}
    (hs : StateInv s) (hdr : ∀ r ∈ draws, drawInRange 20 r)
    (h : frame s es draws = some (s', rest)) :
    StateInv s' ∧ ∀ x ∈ rest, x ∈ draws := by
  rw [frame] at h
  cases he : handleEvents s es draws with
  | none =>
    rw [he] at h
    exact absurd h (by simp)
  | some p =>
    obtain ⟨s₁, draws₁⟩ := p
    rw [he] at h
    obtain ⟨h1, hsub1⟩ := handleEvents_inv es s s₁ draws draws₁ hs hdr he
    have hdr1 : ∀ r ∈ draws₁, drawInRange 20 r := fun r hr => hdr r (hsub1 r hr)
    obtain ⟨h2, hsub2⟩ := simStep_inv h1 hdr1 h
    exact ⟨h2, fun x hx => hsub1 x (hsub2 x hx)⟩

lemma initState_inv {s : GameState} {draws rest : List (ℕ × ℕ)}
    (hdr : ∀ r ∈ draws, drawInRange 20 r)
    (h : initState draws = some (s, rest)) : StateInv s := by
  rw [initState] at h
  cases hre : Food.init.reset_position Snake.init draws with
  | none =>
    rw [hre] at h
    exact absurd h (by simp)
  | some p =>
    obtain ⟨food, rest'⟩ := p
    rw [hre, Option.some.injEq, Prod.mk.injEq] at h
    obtain ⟨rfl, rfl⟩ := h
    exact inv_fresh hdr hre _

/-- Every reachable frame-boundary state satisfies the invariant. -/
lemma reachable_inv {s : GameState} (h : Reachable s) : StateInv s := by
  induction h with
  | init draws s rest hdr hi => exact initState_inv hdr hi
  | step s es draws s' rest hr hdr hf ih => exact (frame_inv ih hdr hf).1

/-! ### C4, C9, C10: invariants of reachable states -/

/-- C4: In every reachable state of the game (after the initial food
placement, observed at frame boundaries), for every input sequence and
every outcome of the random placement obeying the randint contract, the
food's position is not contained in the snake's body. -/
theorem reachable_food_not_in_body (s : GameState) (h : Reachable s) :
    s.food.position ∉ s.snake.body :=
  (reachable_inv h).food_not_mem

/-- The state the game reaches with initial draw `(5, 5)`: fresh snake,
food at `(100, 100)`. -/
lemma demoRunning_reachable : Reachable demoRunning :=
  Reachable.init [(5, 5)] demoRunning [] (by decide) (by decide)

/-- Witness for `reachable_food_not_in_body` at the reachable state
`demoRunning`. -/
theorem reachable_food_not_in_body_witness :
    demoRunning.food.position ∉ demoRunning.snake.body :=
  reachable_food_not_in_body demoRunning demoRunning_reachable

/-- C9: In every reachable state of the game, every coordinate of every
snake body segment is a multiple of the segment size 20, and the food's
position has coordinates that are multiples of 20 with `x ∈ [0, 780]` and
`y ∈ [0, 580]`. -/
theorem reachable_grid_aligned (s : GameState) (h : Reachable s) :
    (∀ c ∈ s.snake.body, (20 : ℤ) ∣ c.1 ∧ (20 : ℤ) ∣ c.2) ∧
    (20 : ℤ) ∣ s.food.position.1 ∧ 0 ≤ s.food.position.1 ∧ s.food.position.1 ≤ 780 ∧
    (20 : ℤ) ∣ s.food.position.2 ∧ 0 ≤ s.food.position.2 ∧ s.food.position.2 ≤ 580 := by
  have hs := reachable_inv h
  exact ⟨hs.body_aligned, hs.food_x_dvd, hs.food_x_lb, hs.food_x_ub,
         hs.food_y_dvd, hs.food_y_lb, hs.food_y_ub⟩

/-- Witness for `reachable_grid_aligned` at the reachable state
`demoRunning`. -/
theorem reachable_grid_aligned_witness :
    (∀ c ∈ demoRunning.snake.body, (20 : ℤ) ∣ c.1 ∧ (20 : ℤ) ∣ c.2) ∧
    (20 : ℤ) ∣ demoRunning.food.position.1 ∧ 0 ≤ demoRunning.food.position.1 ∧
    demoRunning.food.position.1 ≤ 780 ∧
    (20 : ℤ) ∣ demoRunning.food.position.2 ∧ 0 ≤ demoRunning.food.position.2 ∧
    demoRunning.food.position.2 ≤ 580 :=
  reachable_grid_aligned demoRunning demoRunning_reachable

/-- C10: In every reachable state of the game (observed at frame
boundaries), the snake's body length equals the score plus one. -/
theorem reachable_length_eq_score_succ (s : GameState) (h : Reachable s) :
    s.snake.body.length = s.score + 1 :=
  (reachable_inv h).len_score

/-- Witness for `reachable_length_eq_score_succ` at the reachable state
`demoRunning`. -/
theorem reachable_length_eq_score_succ_witness :
    demoRunning.snake.body.length = demoRunning.score + 1 :=
  reachable_length_eq_score_succ demoRunning demoRunning_reachable

/-! ### C2: a collision tick does not consume food -/

/-- The states at which the simulation block of a frame actually runs:
the post-event-handling states of frames started from reachable
frame-boundary states, for any drained events and any randint draws
obeying the randint range contract. Every reachable state is among them
(empty event list), but so are the states produced by same-frame direction
changes or restarts. -/
def TickEntry (s' : GameState) : Prop :=
  ∃ (s : GameState) (es : List Event) (draws rest : List (ℕ × ℕ)),
    Reachable s ∧ (∀ r ∈ draws, drawInRange 20 r) ∧
    handleEvents s es draws = some (s', rest)

lemma tickEntry_inv {s' : GameState} (h : TickEntry s') : StateInv s' := by
  obtain ⟨s, es, draws, rest, hr, hdr, he⟩ := h
  exact (handleEvents_inv es s s' draws rest (reachable_inv hr) hdr he).1

/-- C2: On any simulation tick taken in the running phase — i.e. on any
post-event-handling state of a frame started from a reachable state, which
covers same-frame direction changes — if the snake's move produces a self
or wall collision, the tick sets `game_over` and changes nothing else: the
resulting state is the input state with only the snake moved and the
game-over flag set (score, framerate and food position unchanged, body
length preserved), because at such states a colliding head can never
coincide with the food. -/
theorem running_collision_tick (s : GameState) (draws : List (ℕ × ℕ))
    (hr : TickEntry s) (hro : s.game_over = false)
    (hcol : s.snake.move.is_self_collision ∨ s.snake.move.is_wall_collision) :
    simStep s draws =
      some ({ s with snake := s.snake.move, game_over := true }, draws) ∧
    s.snake.move.body.length = s.snake.body.length := by
  have hs := tickEntry_inv hr
  have hne := hs.body_ne
  refine ⟨?_, Snake.move_length s.snake⟩
  have hf : ¬ (s.snake.move.head = s.food.position) := by
    rcases hcol with hsc | hwc
    · intro he
      have hmem : s.snake.move.head ∈ s.snake.body := by
        unfold Snake.is_self_collision at hsc
        have ht : s.snake.move.body.tail = s.snake.body.dropLast := by
          rw [Snake.move_body s.snake hne, List.tail_cons]
        rw [ht] at hsc
        exact List.dropLast_subset _ hsc
      rw [he] at hmem
      exact hs.food_not_mem hmem
    · intro he
      unfold Snake.is_wall_collision at hwc
      rw [he] at hwc
      have hW : WIDTH = 800 := rfl
      have hH : HEIGHT = 600 := rfl
      have h1 := hs.food_x_lb
      have h2 := hs.food_x_ub
      have h3 := hs.food_y_lb
      have h4 := hs.food_y_ub
      rcases hwc with hx | hx | hy | hy <;> omega
  have hover : decide (s.snake.move.is_self_collision ∨
      s.snake.move.is_wall_collision) = true := decide_eq_true hcol
  rw [simStep, if_neg (by simp [hro]), if_neg hf, hover]

/-- Iterating `frame` with no input events and no randint draws, as `main`
does on frames where the event queue is empty and no food is consumed. -/
def stepN (s : GameState) : ℕ → Option GameState
  | 0 => some s
  | n + 1 =>
    match frame s [] [] with
    | none => none
    | some (s', _) => stepN s' n

lemma stepN_reachable :
    ∀ (n : ℕ) (s s' : GameState), Reachable s → stepN s n = some s' →
      Reachable s' := by
  intro n
  induction n with
  | zero =>
    intro s s' hr h
    rw [stepN, Option.some.injEq] at h
    rw [← h]
    exact hr
  | succ n ih =>
    intro s s' hr h
    rw [stepN] at h
    cases hf : frame s [] [] with
    | none =>
      rw [hf] at h
      exact absurd h (by simp)
    | some p =>
      obtain ⟨s₁, d₁⟩ := p
      rw [hf] at h
      exact ih s₁ s' (Reachable.step s [] [] s₁ d₁ hr (by simp) hf) h

/-- The state after the frame in which the player presses Left on
`demoRunning`: the segment has moved one cell left of center. -/
def demoS1 : GameState :=
  { snake := { body := [(380, 300)], direction := (-1, 0), size := 20 },
    food := demoFood, score := 0, framerate := 5, game_over := false }

lemma demoS1_reachable : Reachable demoS1 :=
  Reachable.step demoRunning [Event.keyLeft] [] demoS1 []
    demoRunning_reachable (by simp) (by decide)

/-- The state 19 event-free frames later: the segment sits at `(0, 300)`,
flush with the left wall, still heading left and still running. -/
def demoWall : GameState :=
  { snake := { body := [(0, 300)], direction := (-1, 0), size := 20 },
    food := demoFood, score := 0, framerate := 5, game_over := false }

lemma demoWall_reachable : Reachable demoWall :=
  stepN_reachable 19 demoS1 demoWall demoS1_reachable (by decide)

/-- The frame boundary after the player presses Up at the left wall: the
segment is at `(0, 280)`, heading up. -/
def demoLeftUp : GameState :=
  { snake := { body := [(0, 280)], direction := (0, -1), size := 20 },
    food := demoFood, score := 0, framerate := 5, game_over := false }

lemma demoLeftUp_reachable : Reachable demoLeftUp :=
  Reachable.step demoWall [Event.keyUp] [] demoLeftUp []
    demoWall_reachable (by simp) (by decide)

/-- The tick-entry state of the next frame after the player presses Left
again: the same-frame turn leaves the body at `(0, 280)` but the direction
already `(-1, 0)`, a combination that is not a frame boundary. Its tick's
move drives the head to `(-20, 280)`, a wall collision. -/
def demoTurned : GameState :=
  { snake := { body := [(0, 280)], direction := (-1, 0), size := 20 },
    food := demoFood, score := 0, framerate := 5, game_over := false }

lemma demoTurned_tickEntry : TickEntry demoTurned :=
  ⟨demoLeftUp, [Event.keyLeft], [], [], demoLeftUp_reachable, by simp, by decide⟩

/-- Witness for `running_collision_tick` at the tick-entry state
`demoTurned`, reached by steering into the left wall with a turn in the
colliding frame itself. -/
theorem running_collision_tick_witness :
    demoTurned.game_over = false ∧
    (demoTurned.snake.move.is_self_collision ∨ demoTurned.snake.move.is_wall_collision) ∧
    (simStep demoTurned [] =
       some ({ demoTurned with snake := demoTurned.snake.move, game_over := true }, []) ∧
     demoTurned.snake.move.body.length = demoTurned.snake.body.length) :=
  ⟨rfl, by decide,
   running_collision_tick demoTurned [] demoTurned_tickEntry rfl (by decide)⟩
